import Mathlib

/-!
Shallow embedding of the stream-connection manager in
src/binance/websockets.py: the reconnect machinery of
ReconnectingWebsocket, its receive loop, and the registry and
session-token coordination of BinanceSocketManager.

Time quantities (the reconnect waits) are modelled as rationals;
counters as naturals; registry keys and listen keys as lists of
characters (Python strings).  The asyncio event loop is modelled by
explicit state passing: each Python method that mutates the object
becomes a function from state to state.
-/

namespace WS

/-- Registry keys, stream paths and listen keys are Python strings. -/
abbrev Key := List Char

/- Class constants of ReconnectingWebsocket (websockets.py lines 13-16). -/

def MAX_RECONNECTS : Nat := 1000

def MAX_RECONNECT_SECONDS : ℚ := 1

def MIN_RECONNECT_WAIT : ℚ := 1 / 10

/-- Python 3 round: round half to even (used by _get_reconnect_wait). -/
def pyRound (q : ℚ) : ℤ :=
  if Int.fract q < 1 / 2 then ⌊q⌋
  else if 1 / 2 < Int.fract q then ⌊q⌋ + 1
  else if ⌊q⌋ % 2 = 0 then ⌊q⌋ else ⌊q⌋ + 1

/-- ReconnectingWebsocket._get_reconnect_wait (lines 69-71):
expo = 2 ** attempts; round(random() * min(MAX_RECONNECT_SECONDS, expo - 1) + 1).
The value drawn by random() is passed in as r. -/
def getReconnectWait (attempts : Nat) (r : ℚ) : ℤ :=
  pyRound (r * min MAX_RECONNECT_SECONDS ((2 : ℚ) ^ attempts - 1) + 1)

/-- State of one ReconnectingWebsocket relevant to the reconnect
machinery: the _reconnects counter, whether a connection task with a
transport is active (_conn and _socket present), and how many times
_connect has been called (transport opens). -/
structure RWState where
  reconnects : Nat
  connected : Bool
  totalConnects : Nat
deriving DecidableEq

/-- State right after the constructor: _reconnects = 0 and _connect()
already called once (line 29). -/
def initRW : RWState := ⟨0, true, 1⟩

/-- ReconnectingWebsocket._reconnect_sync (lines 87-105): cancel the
task and drop the socket, increment _reconnects; if still below
MAX_RECONNECTS, sleep MIN_RECONNECT_WAIT and call _connect() again,
otherwise only log.  The second component is the wait performed before
reopening (none when no reopen happens). -/
def reconnectSync (s : RWState) : RWState × Option ℚ :=
  let s1 : RWState := { s with connected := false }
  let r := s1.reconnects + 1
  if r < MAX_RECONNECTS then
    ({ reconnects := r, connected := true, totalConnects := s1.totalConnects + 1 },
      some MIN_RECONNECT_WAIT)
  else
    ({ reconnects := r, connected := false, totalConnects := s1.totalConnects }, none)

/-- A run of consecutive transport failures: each failure triggers
_reconnect_sync, but only while a connection task is active (a dead
connection suffers no further failures). -/
def runFailures : Nat → RWState → RWState
  | 0, s => s
  | n + 1, s => runFailures n (if s.connected then (reconnectSync s).1 else s)

theorem runFailures_add (a b : Nat) (s : RWState) :
    runFailures (a + b) s = runFailures b (runFailures a s) := by
  induction a generalizing s with
  | zero => simp [runFailures]
  | succ a ih =>
    have : a + 1 + b = (a + b) + 1 := by omega
    rw [this, runFailures, runFailures, ih]

theorem runFailures_inert (n : Nat) (s : RWState) (h : s.connected = false) :
    runFailures n s = s := by
  induction n with
  | zero => rfl
  | succ n ih => rw [runFailures, h]; simp [ih]

theorem runFailures_count (k : Nat) : ∀ (j c : Nat), j + k < MAX_RECONNECTS →
    runFailures k ⟨j, true, c⟩ = ⟨j + k, true, c + k⟩ := by
  induction k with
  | zero => intro j c _; rfl
  | succ k ih =>
    intro j c h
    have hj : j + 1 < MAX_RECONNECTS := by omega
    have hstep : runFailures (k + 1) ⟨j, true, c⟩ = runFailures k ⟨j + 1, true, c + 1⟩ := by
      simp [runFailures, reconnectSync, hj]
    rw [hstep, ih (j + 1) (c + 1) (by omega)]
    have e1 : j + 1 + k = j + (k + 1) := by omega
    have e2 : c + 1 + k = c + (k + 1) := by omega
    rw [e1, e2]

/-- Claim C3: after MAX_RECONNECTS (1000) consecutive failed attempts
starting from a freshly opened connection, the attempt counter sits at
MAX_RECONNECTS and stays there, no further transport open occurs
(totalConnects stays at its plateau c + 999 however many further
failure ticks are fed in), and the connection is permanently inert. -/
theorem max_reconnects_inert (c m : Nat) :
    runFailures (MAX_RECONNECTS + m) ⟨0, true, c⟩ =
      ⟨MAX_RECONNECTS, false, c + (MAX_RECONNECTS - 1)⟩ := by
  have h1 : MAX_RECONNECTS + m = 999 + (1 + m) := by
    simp [MAX_RECONNECTS]; omega
  rw [h1, runFailures_add]
  have h2 : runFailures 999 ⟨0, true, c⟩ = ⟨999, true, c + 999⟩ := by
    simpa using runFailures_count 999 0 c (by simp [MAX_RECONNECTS])
  rw [h2, Nat.add_comm 1 m]
  have h3 : runFailures (m + 1) ⟨999, true, c + 999⟩ =
      runFailures m ⟨1000, false, c + 999⟩ := by
    simp [runFailures, reconnectSync, MAX_RECONNECTS]
  rw [h3, runFailures_inert _ _ rfl]
  simp [MAX_RECONNECTS]

/-- Claim C4 counterexample: on the first failure the live reconnect
path waits MIN_RECONNECT_WAIT = 1/10, which differs from the
backoff-delay value getReconnectWait 1 r; at the drawn value r = 0 the
backoff delay would be 1. -/
theorem reconnect_wait_differs_from_backoff :
    (reconnectSync initRW).2 = some MIN_RECONNECT_WAIT ∧
      MIN_RECONNECT_WAIT ≠ ((getReconnectWait 1 0 : ℤ) : ℚ) := by
  constructor
  · rfl
  · intro h
    have hval : getReconnectWait 1 0 = 1 := by
      have harg : (0 : ℚ) * min MAX_RECONNECT_SECONDS ((2 : ℚ) ^ (1 : Nat) - 1) + 1 = 1 := by
        norm_num
      rw [getReconnectWait, harg, pyRound]
      norm_num
    rw [hval] at h
    norm_num [MIN_RECONNECT_WAIT] at h

/-- Claim C4 (amended): after a transport failure, when the incremented
attempt counter is still below MAX_RECONNECTS, the connection waits the
fixed MIN_RECONNECT_WAIT (0.1) before reopening the transport; the
randomized backoff is not consulted on this path. -/
theorem reconnect_sync_fixed_wait (s : RWState) (h : s.reconnects + 1 < MAX_RECONNECTS) :
    reconnectSync s =
      ({ reconnects := s.reconnects + 1, connected := true,
         totalConnects := s.totalConnects + 1 }, some MIN_RECONNECT_WAIT) := by
  simp [reconnectSync, h]

theorem reconnect_sync_fixed_wait_witness :
    (0 : Nat) + 1 < MAX_RECONNECTS ∧
      reconnectSync ⟨0, true, 1⟩ =
        ({ reconnects := 0 + 1, connected := true, totalConnects := 1 + 1 },
          some MIN_RECONNECT_WAIT) :=
  ⟨by decide, reconnect_sync_fixed_wait ⟨0, true, 1⟩ (by decide)⟩

theorem le_pyRound {a : ℤ} {q : ℚ} (h : (a : ℚ) ≤ q) : a ≤ pyRound q := by
  have hf : a ≤ ⌊q⌋ := Int.le_floor.mpr h
  unfold pyRound
  split
  · exact hf
  · split
    · omega
    · split <;> omega

theorem pyRound_le {q : ℚ} {b : ℤ} (h : q ≤ (b : ℚ)) : pyRound q ≤ b := by
  have hfb : ⌊q⌋ ≤ b := by
    have := Int.floor_le_floor h
    simpa using this
  unfold pyRound
  split
  · exact hfb
  · have hhalf : 1 / 2 ≤ Int.fract q := by linarith [not_lt.mp (by assumption)]
    have hlt : (⌊q⌋ : ℚ) < q := by
      have := Int.fract_add_floor q
      have hpos : 0 < Int.fract q := by linarith
      nlinarith [Int.fract_add_floor q]
    have hqb : (⌊q⌋ : ℚ) < (b : ℚ) := lt_of_lt_of_le hlt h
    have : ⌊q⌋ < b := by exact_mod_cast hqb
    split
    · omega
    · split <;> omega

/-- Claim C5: for every attempt count n and every r in the unit
interval, the backoff delay lies in [1, 1 + min(CAP, 2^n - 1)] with
CAP = MAX_RECONNECT_SECONDS = 1. -/
theorem reconnect_wait_bounds (n : Nat) (r : ℚ) (h0 : 0 ≤ r) (h1 : r ≤ 1) :
    1 ≤ getReconnectWait n r ∧
      getReconnectWait n r ≤ 1 + min 1 ((2 : ℤ) ^ n - 1) := by
  have h2 : (1 : ℚ) ≤ 2 ^ n := one_le_pow₀ (by norm_num)
  have hm0 : (0 : ℚ) ≤ min MAX_RECONNECT_SECONDS ((2 : ℚ) ^ n - 1) := by
    rw [MAX_RECONNECT_SECONDS]
    exact le_min (by norm_num) (by linarith)
  constructor
  · apply le_pyRound
    have : 0 ≤ r * min MAX_RECONNECT_SECONDS ((2 : ℚ) ^ n - 1) := mul_nonneg h0 hm0
    push_cast
    linarith
  · apply pyRound_le
    have hrm : r * min MAX_RECONNECT_SECONDS ((2 : ℚ) ^ n - 1) ≤
        min MAX_RECONNECT_SECONDS ((2 : ℚ) ^ n - 1) :=
      mul_le_of_le_one_left hm0 h1
    have hcast : ((1 + min 1 ((2 : ℤ) ^ n - 1) : ℤ) : ℚ) =
        1 + min MAX_RECONNECT_SECONDS ((2 : ℚ) ^ n - 1) := by
      rw [MAX_RECONNECT_SECONDS]
      push_cast
      ring_nf
    rw [hcast]
    linarith

theorem reconnect_wait_bounds_witness :
    (0 : ℚ) ≤ 1 / 2 ∧ (1 / 2 : ℚ) ≤ 1 ∧
      (1 ≤ getReconnectWait 3 (1 / 2) ∧
        getReconnectWait 3 (1 / 2) ≤ 1 + min 1 ((2 : ℤ) ^ 3 - 1)) :=
  ⟨by norm_num, by norm_num,
    reconnect_wait_bounds 3 (1 / 2) (by norm_num) (by norm_num)⟩

/-!
The receive loop of ReconnectingWebsocket._run (lines 34-67).
One loop iteration awaits wait_for(self._socket.recv(), TIMEOUT) and
handles the outcome; the loop body catches TimeoutError and
CancelledError and keeps looping, dispatches decoded frames, and on
ConnectionClosed or any other exception leaves the loop into
_reconnect_sync.
-/

/-- Observable state of one running receive loop: whether self._socket
is set, whether the while loop is still running, how many frames were
dispatched to the handler coroutine, how many pings were sent, and
whether the loop has exited into _reconnect_sync. -/
structure RunState where
  socketPresent : Bool
  looping : Bool
  handlerCalls : Nat
  pings : Nat
  reconnectCalled : Bool
deriving DecidableEq

/-- Loop state right after the transport opened (lines 39-41). -/
def initRun : RunState := ⟨true, true, 0, 0, false⟩

/-- Outcome of one await of wait_for(self._socket.recv(), TIMEOUT). -/
inductive RecvOutcome where
  | frame (payload : String)
  | timeout
  | cancelled
  | connClosed

/-- ReconnectingWebsocket.send_ping (lines 107-109): ping only when
self._socket is set. -/
def sendPing (s : RunState) : RunState :=
  if s.socketPresent then { s with pings := s.pings + 1 } else s

/-- One iteration of the while loop in _run (lines 44-59), given the
outcome of the recv await.  A TimeoutError or a CancelledError is
caught and answered with send_ping, keeping the loop alive; a frame is
json-decoded and dispatched on success, logged and discarded on
failure; ConnectionClosed propagates to the handler at line 60 which
calls _reconnect_sync. -/
def runStep (decode : String → Option μ) (s : RunState) (o : RecvOutcome) : RunState :=
  if s.looping = false then s else
  match o with
  | .frame p =>
    match decode p with
    | none => s
    | some _ => { s with handlerCalls := s.handlerCalls + 1 }
  | .timeout => sendPing s
  | .cancelled => sendPing s
  | .connClosed => { s with looping := false, reconnectCalled := true }

/-- Start of the next iteration: evaluating self._socket.recv() when
self._socket is None raises AttributeError, which line 64 catches as a
generic exception and answers with _reconnect_sync. -/
def recvAttempt (s : RunState) : RunState :=
  if s.looping = true ∧ s.socketPresent = false then
    { s with looping := false, reconnectCalled := true }
  else s

/-- ReconnectingWebsocket.cancel (lines 111-113): self._conn.cancel()
raises CancelledError at the pending recv await, and self._socket is
set to None; the loop body then handles the cancelled outcome. -/
def cancelWS (decode : String → Option μ) (s : RunState) : RunState :=
  runStep decode { s with socketPresent := false } .cancelled

/-- Claim C2: cancel does not interrupt a loop blocked in its idle
wait: the CancelledError is caught inside the loop (line 50), the loop
is still running afterwards, and the very next recv attempt drops into
_reconnect_sync, which schedules a reconnect rather than stopping the
connection for good. -/
theorem cancel_swallowed_by_receive_loop :
    (cancelWS (fun _ => (none : Option Unit)) initRun).looping = true ∧
      (recvAttempt (cancelWS (fun _ => (none : Option Unit)) initRun)).reconnectCalled = true := by
  decide

/-- Claim C8: a frame whose payload fails to decode is discarded: the
loop state is unchanged, so the handler invocation count does not
increase and the receive loop keeps running. -/
theorem malformed_frame_discarded (μ : Type) (decode : String → Option μ)
    (s : RunState) (p : String) (h : decode p = none) :
    runStep decode s (.frame p) = s := by
  simp [runStep, h]

theorem malformed_frame_discarded_witness :
    (fun _ : String => (none : Option Unit)) "oops" = none ∧
      runStep (fun _ : String => (none : Option Unit)) initRun (.frame "oops") = initRun :=
  ⟨rfl, malformed_frame_discarded Unit (fun _ => none) initRun "oops" rfl⟩

/-!
BinanceSocketManager (lines 116-778).  The registry self._conns is a
Python dict from path to ReconnectingWebsocket; it is modelled as an
insertion-ordered association list from Key to a connection id, since
_check_account_socket_open iterates the dict in insertion order.  The
per-class dicts _listen_keys, _account_callbacks and _timers are
modelled as functions from the closed class enumeration.
-/

/-- The five session classes (keys of _timers, _listen_keys and
_account_callbacks, line 139-141). -/
inductive SocketType where
  | user
  | margin
  | isolated
  | perp
  | delivery
deriving DecidableEq

/-- Iteration order of the per-class dicts (insertion order of the
literals at lines 139-141). -/
def socketTypes : List SocketType :=
  [.user, .margin, .isolated, .perp, .delivery]

/-- State of one BinanceSocketManager.  Connections are identified by
the id they get when constructed; cancelledConns records the ids whose
ReconnectingWebsocket.cancel was awaited, and released records the
listen keys closed server-side by the client stream_close calls. -/
structure BSMState where
  conns : List (Key × Nat)
  nextConnId : Nat
  listenKeys : SocketType → Option Key
  accountCallbacks : SocketType → Option Nat
  timers : SocketType → Bool
  released : List Key
  cancelledConns : List Nat

/-- The matching condition used at lines 690 and 766:
len(conn_key) >= 60 and conn_key[:60] == listen_key. -/
def keyMatchesToken (connKey lk : Key) : Bool :=
  decide (60 ≤ connKey.length) && decide (connKey.take 60 = lk)

/-- Modelled from the spec: the key-matching rule as the spec states it
(section 4.3) — a key belongs to a session token if it is at least as
long as the token and its prefix of the token length equals the token
exactly.  Stated only to compare with keyMatchesToken, the rule the
source implements. -/
def specKeyMatch (connKey token : Key) : Bool :=
  decide (token.length ≤ connKey.length) && decide (connKey.take token.length = token)

/-- BinanceSocketManager._start_socket (lines 150-155): if the path is
already a registry key return False (modelled none); otherwise insert a
newly constructed connection and return the path. -/
def startSocket (s : BSMState) (path : Key) : BSMState × Option Key :=
  if (s.conns.lookup path).isSome then (s, none)
  else
    ({ s with conns := s.conns ++ [(path, s.nextConnId)], nextConnId := s.nextConnId + 1 },
      some path)

/-- BinanceSocketManager._stop_account_socket (lines 693-711): when a
listen key is recorded for the class, cancel its timer, close the
stream server-side and clear the recorded key.  (A falsy recorded key —
None, or the empty string — returns immediately.) -/
def stopAccountSocket (s : BSMState) (t : SocketType) : BSMState :=
  match s.listenKeys t with
  | none => s
  | some lk =>
    if lk.isEmpty then s
    else
      { s with
        timers := fun u => if u = t then false else s.timers u,
        released := lk :: s.released,
        listenKeys := fun u => if u = t then none else s.listenKeys u }

/-- The body of the loop at lines 689-691 of stop_socket, for one
session class: if a listen key is recorded (truthy) and the stopped
connection key matches it, tear the session class down. -/
def accountCleanupStep (connKey : Key) (st : BSMState) (t : SocketType) : BSMState :=
  match st.listenKeys t with
  | none => st
  | some lk =>
    if lk.isEmpty then st
    else if keyMatchesToken connKey lk then stopAccountSocket st t else st

/-- BinanceSocketManager.stop_socket (lines 673-691): no-op when the
key is absent; otherwise cancel the connection, delete it from the
registry, and tear down any session class whose recorded listen key the
stopped key matches. -/
def stopSocket (s : BSMState) (connKey : Key) : BSMState :=
  match s.conns.lookup connKey with
  | none => s
  | some cid =>
    let s1 : BSMState :=
      { s with
        cancelledConns := cid :: s.cancelledConns,
        conns := s.conns.eraseP (fun p => p.1 == connKey) }
    socketTypes.foldl (accountCleanupStep connKey) s1

/-- BinanceSocketManager._check_account_socket_open (lines 760-768):
given a (truthy) listen key, walk the registry in insertion order and
stop the first connection whose key matches it, then break. -/
def checkAccountSocketOpen (s : BSMState) (lk : Key) : BSMState :=
  if lk.isEmpty then s
  else
    match s.conns.find? (fun p => keyMatchesToken p.1 lk) with
    | none => s
    | some p => stopSocket s p.1

/-- BinanceSocketManager._start_account_socket (lines 748-758): clean
up any open socket matching the listen key, record the key and the
callback for the class, start the underlying socket keyed by the listen
key itself, and arm the keepalive timer when the start returned a
truthy connection key. -/
def startAccountSocket (s : BSMState) (t : SocketType) (lk : Key) (cb : Option Nat) :
    BSMState × Option Key :=
  let s1 := checkAccountSocketOpen s lk
  let s2 : BSMState := { s1 with listenKeys := fun u => if u = t then some lk else s1.listenKeys u }
  let s3 : BSMState := { s2 with accountCallbacks := fun u => if u = t then cb else s2.accountCallbacks u }
  let r := startSocket s3 lk
  match r.2 with
  | some k =>
    if k.isEmpty then r
    else ({ r.1 with timers := fun u => if u = t then true else r.1.timers u }, r.2)
  | none => r

/-- One keepalive tick of BinanceSocketManager._keepalive_account_socket
(lines 647-671), with the listen key the client returned passed in as
newKey: if it differs from the recorded key, restart the account socket
with it (reusing the recorded callback); otherwise only re-arm the
timer. -/
def keepaliveAccountSocket (s : BSMState) (t : SocketType) (newKey : Key) : BSMState :=
  let cb := s.accountCallbacks t
  if s.listenKeys t = some newKey then
    { s with timers := fun u => if u = t then true else s.timers u }
  else
    (startAccountSocket s t newKey cb).1

/-- BinanceSocketManager.start_trade_socket (lines 313-348): builds the
path symbol.lower() + "@trade", starts the socket — and returns the
path unconditionally, discarding the False that _start_socket returns
for an already-active key. -/
def startTradeSocket (s : BSMState) (symbol : Key) : BSMState × Key :=
  let path := symbol.map Char.toLower ++ "@trade".data
  ((startSocket s path).1, path)

/-- BinanceSocketManager.start_kline_socket (lines 231-276): same shape
with path symbol.lower() + "@kline_" + interval. -/
def startKlineSocket (s : BSMState) (symbol interval : Key) : BSMState × Key :=
  let path := symbol.map Char.toLower ++ "@kline_".data ++ interval
  ((startSocket s path).1, path)

/-- A 60-character listen key, as issued by the exchange. -/
def keyA : Key := List.replicate 60 'a'

/-- A second, distinct 60-character listen key. -/
def keyB : Key := List.replicate 60 'b'

/-- Manager state in which the user session class holds listen key keyA
and its connection is registered. -/
def rotationState : BSMState :=
  { conns := [(keyA, 0)],
    nextConnId := 1,
    listenKeys := fun t => if t = .user then some keyA else none,
    accountCallbacks := fun t => if t = .user then some 7 else none,
    timers := fun t => decide (t = SocketType.user),
    released := [],
    cancelledConns := [] }

/-- Claim C1: evaluated at the failing input — recorded user listen key
keyA with its connection registered, and a keepalive tick that obtains
a different key keyB.  The cleanup at line 766 matches registry keys
against the new key, so the keyA connection is never stopped: after the
tick both the keyA-keyed and the keyB-keyed connections are registered
at once. -/
theorem keepalive_rotation_leaves_both_connections :
    keyA ≠ keyB ∧
      ((keepaliveAccountSocket rotationState .user keyB).conns.lookup keyA).isSome = true ∧
      ((keepaliveAccountSocket rotationState .user keyB).conns.lookup keyB).isSome = true := by
  decide

/-- Claim C6 counterexample: for the token "ab" and the registry key
"abc" the spec rule classifies the key as session-backed, but the
source condition (hard-coded length 60) does not. -/
theorem key_match_differs_from_spec_rule :
    specKeyMatch "abc".data "ab".data = true ∧
      keyMatchesToken "abc".data "ab".data = false := by
  decide

/-- Claim C6 (amended): the source classifies a registry key as
belonging to a token exactly when the key is at least 60 characters
long and its first 60 characters equal the token; this coincides with
the spec prefix rule precisely for tokens of length 60, and for tokens
of any other length no key is ever classified as belonging. -/
theorem key_match_iff_spec_rule_at_len60 (k t : Key) :
    keyMatchesToken k t = true ↔ (t.length = 60 ∧ specKeyMatch k t = true) := by
  constructor
  · intro h
    simp only [keyMatchesToken, Bool.and_eq_true, decide_eq_true_eq] at h
    obtain ⟨h1, h2⟩ := h
    have ht : t.length = 60 := by
      rw [← h2, List.length_take]
      omega
    refine ⟨ht, ?_⟩
    simp only [specKeyMatch, Bool.and_eq_true, decide_eq_true_eq, ht]
    exact ⟨h1, h2⟩
  · rintro ⟨ht, h⟩
    simp only [specKeyMatch, Bool.and_eq_true, decide_eq_true_eq, ht] at h
    simp only [keyMatchesToken, Bool.and_eq_true, decide_eq_true_eq]
    exact h

/-- Claim C7: a second start of a stream under an already-registered
key returns the already-active signal (False, modelled none) and
leaves the whole manager state — in particular the registry and the
connection under that key — unchanged. -/
theorem start_socket_duplicate_noop (s : BSMState) (k : Key)
    (h : (s.conns.lookup k).isSome = true) :
    startSocket s k = (s, none) := by
  simp [startSocket, h]

/-- Manager state with one ordinary stream registered. -/
def demoState : BSMState :=
  { conns := [("btcusdt@trade".data, 0)],
    nextConnId := 1,
    listenKeys := fun _ => none,
    accountCallbacks := fun _ => none,
    timers := fun _ => false,
    released := [],
    cancelledConns := [] }

theorem start_socket_duplicate_noop_witness :
    (demoState.conns.lookup "btcusdt@trade".data).isSome = true ∧
      startSocket demoState "btcusdt@trade".data = (demoState, none) :=
  ⟨by decide, start_socket_duplicate_noop demoState "btcusdt@trade".data (by decide)⟩

/-- The empty manager state right after the constructor. -/
def emptyBSM : BSMState :=
  { conns := [],
    nextConnId := 0,
    listenKeys := fun _ => none,
    accountCallbacks := fun _ => none,
    timers := fun _ => false,
    released := [],
    cancelledConns := [] }

/-- Claim C9: evaluated at the failing input — the caller-facing
starters return the path unconditionally, discarding the False signal
of _start_socket.  After a first start of the BNBBTC trade stream, a
second identical start still returns the connection key
"bnbbtc@trade" (not the not-started signal), even though the
underlying _start_socket returned False and left the registry
unchanged; start_kline_socket behaves the same way. -/
theorem start_trade_socket_ignores_duplicate_signal :
    (startTradeSocket emptyBSM "BNBBTC".data).2 = "bnbbtc@trade".data ∧
      (startSocket (startTradeSocket emptyBSM "BNBBTC".data).1 "bnbbtc@trade".data).2 = none ∧
      (startTradeSocket (startTradeSocket emptyBSM "BNBBTC".data).1 "BNBBTC".data).2 =
        "bnbbtc@trade".data ∧
      (startTradeSocket (startTradeSocket emptyBSM "BNBBTC".data).1 "BNBBTC".data).1.conns =
        (startTradeSocket emptyBSM "BNBBTC".data).1.conns ∧
      (startKlineSocket (startKlineSocket emptyBSM "BNBBTC".data "1m".data).1
          "BNBBTC".data "1m".data).2 = "bnbbtc@kline_1m".data := by
  decide

theorem conns_stopAccountSocket (s : BSMState) (t : SocketType) :
    (stopAccountSocket s t).conns = s.conns := by
  unfold stopAccountSocket
  split
  · rfl
  · split <;> rfl

theorem conns_accountCleanupStep (k : Key) (s : BSMState) (t : SocketType) :
    (accountCleanupStep k s t).conns = s.conns := by
  unfold accountCleanupStep
  split
  · rfl
  · split
    · rfl
    · split
      · exact conns_stopAccountSocket s t
      · rfl

theorem conns_cleanupFold (l : List SocketType) (k : Key) :
    ∀ s : BSMState, (l.foldl (accountCleanupStep k) s).conns = s.conns := by
  induction l with
  | nil => intro s; rfl
  | cons t ts ih =>
    intro s
    rw [List.foldl_cons, ih, conns_accountCleanupStep]

theorem conns_stopSocket (s : BSMState) (k : Key)
    (h : (s.conns.lookup k).isSome = true) :
    (stopSocket s k).conns = s.conns.eraseP (fun p => p.1 == k) := by
  unfold stopSocket
  split
  next heq => rw [heq] at h; simp at h
  next c heq => exact conns_cleanupFold socketTypes k _

/-- Claim C10: the pre-start cleanup stops at most one registered
connection whose key matches the listen key (the loop at line 768
breaks after the first match): the registry shrinks by at most one
entry, and every matching entry other than the first one found remains
registered after the cleanup. -/
theorem cleanup_stops_at_most_one (s : BSMState) (lk : Key)
    (hnd : (s.conns.map Prod.fst).Nodup) :
    s.conns.length ≤ (checkAccountSocketOpen s lk).conns.length + 1 ∧
      ∀ p ∈ s.conns, keyMatchesToken p.1 lk = true →
        s.conns.find? (fun q => keyMatchesToken q.1 lk) ≠ some p →
        p ∈ (checkAccountSocketOpen s lk).conns := by
  unfold checkAccountSocketOpen
  split
  · exact ⟨by omega, fun p hp _ _ => hp⟩
  · split
    next hfind => exact ⟨by omega, fun p hp _ _ => hp⟩
    next q hfind =>
      have hqmem : q ∈ s.conns := List.mem_of_find?_eq_some hfind
      have hlookup : (s.conns.lookup q.1).isSome = true := by
        rw [List.lookup_isSome_iff]
        exact ⟨q, hqmem, by simp⟩
      rw [conns_stopSocket s q.1 hlookup]
      constructor
      · have := List.le_length_eraseP (l := s.conns) (p := fun p => p.1 == q.1)
        omega
      · intro p hp hmatch hne
        have hpq : p ≠ q := by
          intro h
          exact hne (by rw [h]; exact hfind)
        have hfst : p.1 ≠ q.1 := by
          intro h
          exact hpq (List.inj_on_of_nodup_map hnd hp hqmem h)
        have hneg : ¬ ((fun r : Key × Nat => r.1 == q.1) p = true) := by
          intro hc
          exact hfst (by simpa using hc)
        have hmem : p ∈ s.conns.eraseP (fun r : Key × Nat => r.1 == q.1) ↔ p ∈ s.conns :=
          List.mem_eraseP_of_neg hneg
        exact hmem.mpr hp

/-- Manager state holding two registered connections that both match
listen key keyA: the plain key and the composite key with a suffix. -/
def dupState : BSMState :=
  { conns := [(keyA, 0), (keyA ++ "x".data, 1)],
    nextConnId := 2,
    listenKeys := fun t => if t = .user then some keyA else none,
    accountCallbacks := fun _ => none,
    timers := fun _ => false,
    released := [],
    cancelledConns := [] }

theorem cleanup_stops_at_most_one_witness :
    (dupState.conns.map Prod.fst).Nodup ∧
      (dupState.conns.length ≤ (checkAccountSocketOpen dupState keyA).conns.length + 1 ∧
        ∀ p ∈ dupState.conns, keyMatchesToken p.1 keyA = true →
          dupState.conns.find? (fun q => keyMatchesToken q.1 keyA) ≠ some p →
          p ∈ (checkAccountSocketOpen dupState keyA).conns) :=
  ⟨by decide, cleanup_stops_at_most_one dupState keyA (by decide)⟩

end WS
